import Mathlib

/-!
Verification development for `autogpt/memory/message_history.py`
(the `MessageHistory` class: `trim_messages`, `update_running_summary`,
`summarize_batch`, `summary_message`).

The Python code is embedded shallowly:

* `Message` and `MessageCycle` come from `autogpt/llm/base.py`, which is not
  part of the sources at hand; they are modelled from the specification's
  data model (a role/content record with value equality, and an ordered
  sequence of messages).
* External collaborators (token counter, model context size, completion
  service) are gathered in an `Env` record.  The completion service is
  modelled as an oracle indexed by the number of completion calls issued so
  far inside one `update_running_summary` run, so that a particular call in
  the sequence can succeed or fail.
* Mutation of `self.summary` / `self.last_trimmed_index` is made explicit:
  every operation returns the post-state of the store, together with the
  value the Python method would return (`Except` distinguishes a raised
  exception from a normal return, and the post-state is kept even when an
  exception propagates, as the Python object outlives the exception).
* Instrumentation: the arguments of every `summarize_batch` call are
  recorded in a trace (`FlushRec`), together with the `summary_tlength`
  value in force while that batch accumulated; the diagnostics emitted by
  `logger.error` are recorded as a list of strings.  The audit-log
  collaborator (`log_cycle`) is out of scope per the specification and is
  not modelled.
-/

/-- A chat message: a role/content record.  Modelled from the spec:
`Message` (`autogpt/llm/base.py`, not among the sources) is a record
`(role, content)` whose equality is value equality. -/
structure Message where
  role : String
  content : String
deriving DecidableEq

/-- Modelled from the spec: `MessageCycle` (`autogpt/llm/base.py`, not among
the sources) is an ordered sequence of one or more Messages representing one
request/response round; it is a record type distinct from `Message`. -/
structure MessageCycle where
  messages : List Message
deriving DecidableEq

/-- The `MessageHistory` dataclass (without the `agent` field, which is used
only for the out-of-scope audit logging).  `message_cycles` holds
`MessageCycle` objects (they are what `append` receives), `summary` starts
as `"I was created"` and `last_trimmed_index` as `0`. -/
structure MessageHistory where
  message_cycles : List MessageCycle := []
  summary : String := "I was created"
  last_trimmed_index : Nat := 0
deriving DecidableEq

/-- The `messages` property: concatenation of every cycle's messages, in
cycle order then intra-cycle order. -/
def MessageHistory.messages (h : MessageHistory) : List Message :=
  (h.message_cycles.map MessageCycle.messages).flatten

/-- `summary_message()`: a synthetic system-role message framing the current
summary. -/
def MessageHistory.summary_message (h : MessageHistory) : Message :=
  ⟨"system", "This reminds you of these events from your past: \n" ++ h.summary⟩

/-- The external collaborators used by `update_running_summary`:
`max_tokens` is `OPEN_AI_CHAT_MODELS.get(cfg.fast_llm_model).max_tokens`;
`count_message_tokens e` is `count_string_tokens(str(event), cfg.fast_llm_model)`;
`count_string_tokens s` is `count_string_tokens(s, cfg.fast_llm_model)`
(note `str` of a Python string is the string itself);
`complete n` is the result of the `n`-th `create_chat_completion` call of
the run (`Except.error` models a raised service failure). -/
structure Env where
  max_tokens : Nat
  count_message_tokens : Message → Nat
  count_string_tokens : String → Nat
  complete : Nat → Except Unit String

/-- The assumed upper bound for the summary prompt template
(`prompt_template_length = 100` in `update_running_summary`). -/
def prompt_template_length : Nat := 100

/-- Python's `str.lower` (ASCII case folding, which is all the roles use). -/
def pyLower (s : String) : String :=
  String.mk (s.toList.map Char.toLower)

/-- Skip JSON whitespace. -/
def jsonSkipWs : List Char → List Char
  | [] => []
  | c :: cs =>
    if c = ' ' ∨ c = '\n' ∨ c = '\t' ∨ c = '\r' then jsonSkipWs cs else c :: cs

/-- Read the characters of a JSON string literal up to the closing quote
(the opening quote has already been consumed); no escape sequences. -/
def jsonTakeStr : List Char → Option (String × List Char)
  | [] => none
  | c :: cs =>
    if c = '"' then some ("", cs)
    else
      match jsonTakeStr cs with
      | some (s, rest) => some (String.mk (c :: s.toList), rest)
      | none => none

/-- Insert a key/value pair with Python-dict semantics: an existing key is
updated in place (keeping its position), a new key is appended. -/
def jsonDictInsert (d : List (String × String)) (k v : String) :
    List (String × String) :=
  if (d.lookup k).isSome then
    d.map (fun p => if p.1 = k then (k, v) else p)
  else d ++ [(k, v)]

/-- Parse the comma-separated pairs of a JSON object body, then the closing
brace and end of input.  `fuel` only bounds recursion; each recursive call
consumes at least one input character, so `input length + 1` suffices. -/
def jsonParsePairs :
    Nat → List Char → List (String × String) → Except Unit (List (String × String))
  | 0, _, _ => Except.error ()
  | fuel + 1, cs, acc =>
    match jsonSkipWs cs with
    | '"' :: cs1 =>
      match jsonTakeStr cs1 with
      | none => Except.error ()
      | some (k, cs2) =>
        match jsonSkipWs cs2 with
        | ':' :: cs3 =>
          match jsonSkipWs cs3 with
          | '"' :: cs4 =>
            match jsonTakeStr cs4 with
            | none => Except.error ()
            | some (v, cs5) =>
              let acc1 := jsonDictInsert acc k v
              match jsonSkipWs cs5 with
              | ',' :: cs6 => jsonParsePairs fuel cs6 acc1
              | '\x7d' :: cs6 =>
                match jsonSkipWs cs6 with
                | [] => Except.ok acc1
                | _ => Except.error ()
              | _ => Except.error ()
          | _ => Except.error ()
        | _ => Except.error ()
    | _ => Except.error ()

/-- Modelled from the spec: `extract_json_from_response`
(`autogpt/json_utils/utilities.py`, not among the sources) parses a JSON
object from the text and raises a parse error (`json.JSONDecodeError`) on
malformed input.  Modelled here for flat objects with string keys and string
values, which covers the payloads the claims consider; anything else is
reported as a parse error. -/
def extract_json_from_response (s : String) :
    Except Unit (List (String × String)) :=
  match jsonSkipWs s.toList with
  | '\x7b' :: cs =>
    match jsonSkipWs cs with
    | '\x7d' :: cs1 =>
      match jsonSkipWs cs1 with
      | [] => Except.ok []
      | _ => Except.error ()
    | _ => jsonParsePairs (s.length + 1) cs []
  | _ => Except.error ()

/-- Python's `json.dumps` on a flat string-valued object (default
separators: `", "` between pairs, `": "` after a key). -/
def jsonDumps (d : List (String × String)) : String :=
  "\x7b" ++
    String.intercalate ", "
      (d.map (fun p => "\"" ++ p.1 ++ "\": \"" ++ p.2 ++ "\"")) ++
    "\x7d"

/-- Python's `list.remove`: delete the first element equal (by value) to
`m`.  In the normalization loop the removed element is always present, so
the `ValueError` branch of `list.remove` is unreachable. -/
def pyRemove : List Message → Message → List Message
  | [], _ => []
  | x :: xs, m => if x = m then xs else x :: pyRemove xs m

/-- One Python `for event in new_events:` loop of the normalizer, with the
list mutated underneath the iterator exactly as CPython does it: the
iterator keeps a cursor `i`, reads `new_events[i]`, runs the body (which may
assign to the element in place, or call `new_events.remove`), then
increments `i`; iteration stops when `i` falls outside the current list.
`fuel` is spent once per iteration; since `i` grows by one per iteration and
the list never grows, `l.length` iterations always suffice, and when fuel
runs out the cursor is already past the end, so returning the current state
agrees with the Python loop. -/
def normGo : Nat → List Message → Nat → List String → List Message × List String
  | 0, l, _, diags => (l, diags)
  | fuel + 1, l, i, diags =>
    match l[i]? with
    | none => (l, diags)
    | some e =>
      if pyLower e.role = "assistant" then
        match extract_json_from_response e.content with
        | Except.ok d =>
          let d1 :=
            if (d.lookup "thoughts").isSome then
              d.filter (fun p => decide (p.1 ≠ "thoughts"))
            else d
          normGo fuel (l.set i ⟨"you", jsonDumps d1⟩) (i + 1) diags
        | Except.error _ =>
          normGo fuel (l.set i ⟨"you", e.content⟩) (i + 1)
            (diags ++ ["Error: Invalid JSON"])
      else if pyLower e.role = "system" then
        normGo fuel (l.set i ⟨"your computer", e.content⟩) (i + 1) diags
      else if e.role = "user" then
        normGo fuel (pyRemove l e) (i + 1) diags
      else
        normGo fuel l (i + 1) diags

/-- The normalization pass of `update_running_summary` (the role-relabel /
thoughts-strip / drop-user loop), applied to the deep copy of `new_events`.
Returns the final list and the `logger.error` diagnostics emitted. -/
def normalize_events (l : List Message) : List Message × List String :=
  normGo l.length l 0 []

/-- One recorded `summarize_batch` call: the batch handed to the completion
service, and the `summary_tlength` value that was in force while this batch
accumulated (i.e. the token count of the summary as recomputed right after
the previous flush, or of the initial summary for the first batch). -/
structure FlushRec where
  batch : List Message
  summaryT : Nat
deriving DecidableEq

/-- The mutable state threaded through the batch loop: the store's
`summary` plus the trace of issued completion calls. -/
structure PackSt where
  summary : String
  flushes : List FlushRec
deriving DecidableEq

/-- `summarize_batch`: issues one completion call (the oracle index is the
number of calls already issued in this run) and replaces `summary` with the
response content; on a service failure the exception flag is set and
`summary` is untouched.  The call is recorded in the trace either way. -/
def summarize_batch (env : Env) (st : PackSt) (batch : List Message)
    (summaryT : Nat) : PackSt × Bool :=
  let st1 : PackSt := ⟨st.summary, st.flushes ++ [⟨batch, summaryT⟩]⟩
  match env.complete st.flushes.length with
  | Except.ok s => (⟨s, st1.flushes⟩, false)
  | Except.error _ => (st1, true)

/-- The batch-packing loop of `update_running_summary`: greedily accumulate
events; when `batch_tlength + event_tlength` would exceed
`max_tokens - prompt_template_length - summary_tlength` (Python integer
arithmetic, hence the `Int` comparison: the budget can be negative), flush
the current batch, recompute `summary_tlength`, and start a new batch
holding just the offending event; after the loop flush any non-empty batch.
The `Bool` result records whether a completion failure escaped. -/
def packLoop (env : Env) :
    List Message → PackSt → List Message → Nat → Nat → PackSt × Bool
  | [], st, batch, _, summaryT =>
    if batch.isEmpty then (st, false)
    else summarize_batch env st batch summaryT
  | e :: rest, st, batch, batchT, summaryT =>
    let event_tlength := env.count_message_tokens e
    if ((batchT : Int) + (event_tlength : Int) >
        (env.max_tokens : Int) - (prompt_template_length : Int) - (summaryT : Int)) then
      let p := summarize_batch env st batch summaryT
      if p.2 then (p.1, true)
      else packLoop env rest p.1 [e] event_tlength
        (env.count_string_tokens p.1.summary)
    else
      packLoop env rest st (batch ++ [e]) (batchT + event_tlength) summaryT

/-- Token length of a batch: the sum of the events' token lengths. -/
def batchTokens (env : Env) (l : List Message) : Nat :=
  (l.map env.count_message_tokens).sum

/-- Outcome of `update_running_summary`: the post-state of the store,
the returned message (`none` when a completion failure escaped), the trace
of completion calls and the emitted diagnostics. -/
structure UpdateOutcome where
  store : MessageHistory
  ret : Option Message
  flushes : List FlushRec
  diagnostics : List String

/-- `update_running_summary(new_events)`: short-circuit on an empty list,
normalize a deep copy of the events, then run the packing loop starting
from the current summary.  Only `self.summary` is mutated. -/
def MessageHistory.update_running_summary (env : Env) (h : MessageHistory)
    (new_events : List Message) : UpdateOutcome :=
  if new_events.isEmpty then ⟨h, some h.summary_message, [], []⟩
  else
    let norm := normalize_events new_events
    let summary_tlength := env.count_string_tokens h.summary
    let r := packLoop env norm.1 ⟨h.summary, []⟩ [] 0 summary_tlength
    let h1 : MessageHistory := { h with summary := r.1.summary }
    ⟨h1, if r.2 then none else some h1.summary_message, r.1.flushes, norm.2⟩

/-- Modelled from the spec: Python `==` between a `MessageCycle` and a
`Message`.  `MessageCycle` and `Message` are distinct record (dataclass)
types — the spec's data model gives value equality for messages and
describes a cycle as a sequence of messages — and Python dataclass equality
across distinct classes is always `False`. -/
def cycleEqMessage (_c : MessageCycle) (_m : Message) : Bool := false

/-- Python's `list.index` on `self.message_cycles` with a `Message`
argument: the index of the first cycle comparing equal to the message, or
`none` (Python raises `ValueError`) when there is no match. -/
def pyIndexCycles (l : List MessageCycle) (m : Message) : Option Nat :=
  l.findIdx? (fun c => cycleEqMessage c m)

/-- The exceptions that can escape `trim_messages`: a completion-service
failure from `summarize_batch`, or the `ValueError` of
`self.message_cycles.index(last_message)`. -/
inductive TrimErr where
  | completionFailure
  | valueError

/-- The `new_messages` selection of `trim_messages`: the flattened messages
whose index is strictly greater than `last_trimmed_index`. -/
def newMessagesOf (h : MessageHistory) : List Message :=
  ((h.messages.enum.filter (fun p => decide (h.last_trimmed_index < p.1))).map
    Prod.snd)

/-- The `new_messages_not_in_chain` selection of `trim_messages`: the
candidates that are absent (by value) from `current_message_chain`. -/
def staleOf (h : MessageHistory) (chain : List Message) : List Message :=
  (newMessagesOf h).filter (fun m => decide (m ∉ chain))

/-- Outcome of `trim_messages`: the post-state of the store, the returned
pair (or the escaped exception), the trace of completion calls and the
emitted diagnostics. -/
structure TrimOutcome where
  store : MessageHistory
  result : Except TrimErr (Message × List Message)
  flushes : List FlushRec
  diagnostics : List String

/-- `trim_messages(current_message_chain)`: select the candidates past the
cursor, drop those present in the chain, short-circuit when nothing is
stale, otherwise run `update_running_summary` on the stale messages and
then execute `self.last_trimmed_index = self.message_cycles.index(last_message)`
before returning. -/
def MessageHistory.trim_messages (env : Env) (h : MessageHistory)
    (chain : List Message) : TrimOutcome :=
  match staleOf h chain with
  | [] => ⟨h, Except.ok (h.summary_message, []), [], []⟩
  | m :: rest =>
    let u := h.update_running_summary env (m :: rest)
    match u.ret with
    | none => ⟨u.store, Except.error TrimErr.completionFailure, u.flushes,
        u.diagnostics⟩
    | some newSummaryMessage =>
      match pyIndexCycles u.store.message_cycles
          ((m :: rest).getLast (List.cons_ne_nil m rest)) with
      | some idx =>
        ⟨{ u.store with last_trimmed_index := idx },
          Except.ok (newSummaryMessage, m :: rest), u.flushes, u.diagnostics⟩
      | none => ⟨u.store, Except.error TrimErr.valueError, u.flushes,
          u.diagnostics⟩

/-- One operation on a message history store: appending a cycle (the only
way the log grows, per the data model) or a `trim_messages` call. -/
inductive HistOp where
  | append (c : MessageCycle)
  | trim (chain : List Message)

/-- Apply one operation to the store, keeping the post-state (for a trim
this is the store after the call, whether or not an exception escaped). -/
def applyOp (env : Env) (h : MessageHistory) : HistOp → MessageHistory
  | HistOp.append c => { h with message_cycles := h.message_cycles ++ [c] }
  | HistOp.trim chain => (h.trim_messages env chain).store

/-- Run a sequence of operations on the store. -/
def runOps (env : Env) (h : MessageHistory) : List HistOp → MessageHistory
  | [] => h
  | op :: ops => runOps env (applyOp env h op) ops

/-- The budget property a recorded flush may be expected to satisfy: a batch
of at least two events fits in `max_tokens - prompt_template_length -
summary_tlength`, with `summary_tlength` as it stood when the batch started
accumulating. -/
def GoodRec (env : Env) (r : FlushRec) : Prop :=
  2 ≤ r.batch.length →
    (batchTokens env r.batch : Int) ≤
      (env.max_tokens : Int) - (prompt_template_length : Int) - (r.summaryT : Int)

/-- An environment whose completion service always answers `"S"` and whose
token counts are all 1. -/
def envC1 : Env := ⟨200, fun _ => 1, fun _ => 1, fun _ => Except.ok "S"⟩

/-- Four singleton cycles: flattened history `[m0, m1, m2, m3]`, all
distinct by value, cursor at 0. -/
def hC1 : MessageHistory :=
  ⟨[⟨[⟨"function", "m0"⟩]⟩, ⟨[⟨"function", "m1"⟩]⟩, ⟨[⟨"function", "m2"⟩]⟩,
    ⟨[⟨"function", "m3"⟩]⟩], "I was created", 0⟩

/-- Tokens: every event counts 150, every string 13; context size 200, so
the budget `200 - 100 - 13 = 87` is smaller than a single event. -/
def envC3 : Env := ⟨200, fun _ => 150, fun _ => 13, fun _ => Except.ok "ok"⟩

/-- A fresh store (no cycles, initial summary, cursor 0). -/
def hC3 : MessageHistory := ⟨[], "I was created", 0⟩

/-- Tokens: every event counts 10, every string 13; two events fit in one
batch within the budget `200 - 100 - 13 = 87`. -/
def envWit : Env := ⟨200, fun _ => 10, fun _ => 13, fun _ => Except.ok "ok"⟩

/-- Tokens: every event counts 30, every string 50; budget `200 - 100 - 50
= 50`, so each event needs its own batch.  The first completion call
answers `"S1"`, every later call raises a service failure. -/
def envC5 : Env :=
  ⟨200, fun _ => 30, fun _ => 50,
    fun n => if n = 0 then Except.ok "S1" else Except.error ()⟩

/-- Same token accounting as `envC5` but every completion call succeeds. -/
def envC5ok : Env :=
  ⟨200, fun _ => 30, fun _ => 50, fun n => Except.ok ("S" ++ toString n)⟩

/-- Four singleton cycles `[m0, a, b, c]`, cursor at 0: trimming against an
empty chain makes `[a, b, c]` stale, which under `envC5` packs into three
planned batches. -/
def hC5 : MessageHistory :=
  ⟨[⟨[⟨"function", "m0"⟩]⟩, ⟨[⟨"function", "a"⟩]⟩, ⟨[⟨"function", "b"⟩]⟩,
    ⟨[⟨"function", "c"⟩]⟩], "I was created", 0⟩

/-- A store with a single one-message cycle and cursor 0: no candidate lies
past the cursor, so every trim is a no-op. -/
def hC6 : MessageHistory := ⟨[⟨[⟨"system", "hello"⟩]⟩], "I was created", 0⟩

/-- Two singleton cycles, cursor 0. -/
def hC10 : MessageHistory :=
  ⟨[⟨[⟨"function", "m0"⟩]⟩, ⟨[⟨"function", "m1"⟩]⟩], "s", 0⟩

/-- Python `==` between a cycle and a message is always `False`. -/
lemma cycleEqMessage_false (c : MessageCycle) (m : Message) :
    cycleEqMessage c m = false := rfl

/-- `self.message_cycles.index(last_message)` never finds a match: the
modelled `ValueError` branch is always taken. -/
lemma pyIndexCycles_eq_none (l : List MessageCycle) (m : Message) :
    pyIndexCycles l m = none := by
  unfold pyIndexCycles
  induction l with
  | nil => rfl
  | cons c cs ih => simp [List.findIdx?_cons, cycleEqMessage, ih]

/-- `update_running_summary` only mutates `summary`: the cycles and the
cursor of the store are unchanged in its outcome. -/
lemma update_store_fields (env : Env) (h : MessageHistory)
    (evs : List Message) :
    (h.update_running_summary env evs).store.message_cycles = h.message_cycles ∧
      (h.update_running_summary env evs).store.last_trimmed_index =
        h.last_trimmed_index := by
  unfold MessageHistory.update_running_summary
  split <;> simp

/-- The store's `message_cycles` are unchanged by `trim_messages`. -/
lemma trim_store_cycles (env : Env) (h : MessageHistory)
    (chain : List Message) :
    (h.trim_messages env chain).store.message_cycles = h.message_cycles := by
  unfold MessageHistory.trim_messages
  rcases hs : staleOf h chain with _ | ⟨m, rest⟩
  · rfl
  · dsimp only
    rcases hret : (h.update_running_summary env (m :: rest)).ret with _ | nm
    · exact (update_store_fields env h (m :: rest)).1
    · rw [pyIndexCycles_eq_none]
      exact (update_store_fields env h (m :: rest)).1

/-- The store's `last_trimmed_index` is unchanged by `trim_messages` (the
only assignment to it sits behind the `message_cycles.index` call, which
always raises). -/
lemma trim_store_cursor (env : Env) (h : MessageHistory)
    (chain : List Message) :
    (h.trim_messages env chain).store.last_trimmed_index =
      h.last_trimmed_index := by
  unfold MessageHistory.trim_messages
  rcases hs : staleOf h chain with _ | ⟨m, rest⟩
  · rfl
  · dsimp only
    rcases hret : (h.update_running_summary env (m :: rest)).ret with _ | nm
    · exact (update_store_fields env h (m :: rest)).2
    · rw [pyIndexCycles_eq_none]
      exact (update_store_fields env h (m :: rest)).2

/-- When `trim_messages` returns normally, the returned message list is
exactly the (un-normalized) stale selection. -/
lemma trim_result_ok_stale (env : Env) (h : MessageHistory)
    (chain : List Message) :
    ∀ p : Message × List Message,
      (h.trim_messages env chain).result = Except.ok p →
        p.2 = staleOf h chain := by
  intro p hp
  unfold MessageHistory.trim_messages at hp
  rcases hs : staleOf h chain with _ | ⟨m, rest⟩ <;> rw [hs] at hp
  · simp only [Except.ok.injEq] at hp
    rw [← hp]
  · dsimp only at hp
    rcases hret : (h.update_running_summary env (m :: rest)).ret with _ | nm <;>
      rw [hret] at hp
    · simp at hp
    · rw [pyIndexCycles_eq_none] at hp
      simp at hp

/-- A cycle append does not touch the cursor. -/
lemma applyOp_cursor (env : Env) (h : MessageHistory) (op : HistOp) :
    (applyOp env h op).last_trimmed_index = h.last_trimmed_index := by
  cases op with
  | append c => rfl
  | trim chain => exact trim_store_cursor env h chain

/-- Across any operation sequence the cursor keeps its value. -/
lemma runOps_cursor (env : Env) (ops : List HistOp) :
    ∀ h : MessageHistory,
      (runOps env h ops).last_trimmed_index = h.last_trimmed_index := by
  induction ops with
  | nil => intro h; rfl
  | cons op ops ih =>
    intro h
    show (runOps env (applyOp env h op) ops).last_trimmed_index = _
    rw [ih, applyOp_cursor]

/-- `summarize_batch` records exactly one flush. -/
lemma summarize_batch_flushes (env : Env) (st : PackSt)
    (batch : List Message) (summaryT : Nat) :
    (summarize_batch env st batch summaryT).1.flushes =
      st.flushes ++ [⟨batch, summaryT⟩] := by
  unfold summarize_batch
  rcases env.complete st.flushes.length with _ | s <;> rfl

/-- Packing invariant: if every already-recorded flush is `GoodRec`, the
running `batch_tlength` is the token sum of the running batch, and the
running batch respects the budget whenever it has at least two events, then
every flush recorded by the rest of the loop is `GoodRec`.  (A batch's
first event is placed without a budget check, which is why only batches of
two or more events are constrained.) -/
lemma packLoop_good (env : Env) (evs : List Message) :
    ∀ (st : PackSt) (batch : List Message) (batchT summaryT : Nat),
      (∀ r ∈ st.flushes, GoodRec env r) →
      batchT = batchTokens env batch →
      (2 ≤ batch.length →
        (batchT : Int) ≤
          (env.max_tokens : Int) - (prompt_template_length : Int) - (summaryT : Int)) →
      ∀ r ∈ (packLoop env evs st batch batchT summaryT).1.flushes,
        GoodRec env r := by
  induction evs with
  | nil =>
    intro st batch batchT summaryT hst hsum hcur r hr
    unfold packLoop at hr
    split at hr
    · exact hst r hr
    · rw [summarize_batch_flushes] at hr
      rcases List.mem_append.mp hr with hmem | hmem
      · exact hst r hmem
      · rcases List.mem_singleton.mp hmem with rfl
        intro hlen
        rw [← hsum]
        exact hcur hlen
  | cons e rest ih =>
    intro st batch batchT summaryT hst hsum hcur r hr
    unfold packLoop at hr
    dsimp only at hr
    split at hr
    · -- overflow: flush the current batch, restart with [e]
      have hstep :
          ∀ r ∈ (summarize_batch env st batch summaryT).1.flushes, GoodRec env r := by
        rw [summarize_batch_flushes]
        intro r hr
        rcases List.mem_append.mp hr with hmem | hmem
        · exact hst r hmem
        · rcases List.mem_singleton.mp hmem with rfl
          intro hlen
          rw [← hsum]
          exact hcur hlen
      split at hr
      · exact hstep r hr
      · refine ih _ [e] _ _ hstep ?_ ?_ r hr
        · simp [batchTokens]
        · intro h2
          simp at h2
    · -- the event fits: append it to the running batch
      rename_i hfit
      refine ih st (batch ++ [e]) _ _ hst ?_ ?_ r hr
      · simp [batchTokens, List.map_append, List.sum_append] at hsum ⊢
        omega
      · intro _
        rw [Int.not_lt] at hfit
        push_cast at hfit ⊢
        omega

/-- Enumerating from `n`, keeping the entries with index above `k` and
dropping the indices again is the same as dropping the first `k + 1 - n`
elements. -/
lemma enumFrom_filter_snd {α : Type} (k : Nat) :
    ∀ (l : List α) (n : Nat),
      ((List.enumFrom n l).filter (fun p => decide (k < p.1))).map Prod.snd
        = l.drop (k + 1 - n) := by
  intro l
  induction l with
  | nil => intro n; simp
  | cons a as ih =>
    intro n
    by_cases hkn : k < n
    · have h1 : k + 1 - n = 0 := by omega
      have h2 : k + 1 - (n + 1) = 0 := by omega
      simp [List.enumFrom, List.filter_cons, hkn, ih, h1, h2]
    · have h1 : k + 1 - n = (k - n) + 1 := by omega
      have h2 : k + 1 - (n + 1) = k - n := by omega
      simp [List.enumFrom, List.filter_cons, hkn, ih, h1, h2]

/-- The candidate selection of `trim_messages` is the flattened sequence
with the first `last_trimmed_index + 1` messages dropped. -/
lemma newMessagesOf_eq (h : MessageHistory) :
    newMessagesOf h = h.messages.drop (h.last_trimmed_index + 1) := by
  have hmain := enumFrom_filter_snd h.last_trimmed_index h.messages 0
  simpa [newMessagesOf, List.enum] using hmain

/-- C1: for flattened history `[m0, m1, m2, m3]` (four singleton cycles,
all distinct by value) with `last_trimmed_index = 0` and
`current_message_chain = [m2]`, the claim says `trim` returns
`stale = [m1, m3]` and advances the cursor to 3.  The code does compute
`stale = [m1, m3]` (and folds it into the summary), but then
`self.last_trimmed_index = self.message_cycles.index(last_message)` raises
`ValueError` — a `Message` is searched among `MessageCycle` objects and
never matches — so nothing is returned and the cursor stays 0. -/
theorem c1_trim_chain_diff_failing :
    staleOf hC1 [⟨"function", "m2"⟩] =
      [⟨"function", "m1"⟩, ⟨"function", "m3"⟩] ∧
    (hC1.trim_messages envC1 [⟨"function", "m2"⟩]).result =
      Except.error TrimErr.valueError ∧
    (hC1.trim_messages envC1 [⟨"function", "m2"⟩]).store.last_trimmed_index = 0 ∧
    (hC1.trim_messages envC1 [⟨"function", "m2"⟩]).store.summary = "S" :=
  ⟨by decide, rfl, rfl, rfl⟩

/-- C2: across any sequence of `trim` calls (with cycles only appended in
between), `last_trimmed_index` never decreases — in this code it never
changes at all, since the only assignment to it sits after the
`message_cycles.index` call, which always raises. -/
theorem c2_cursor_monotonic :
    (∀ (env : Env) (h : MessageHistory) (chain : List Message),
        h.last_trimmed_index ≤
          (h.trim_messages env chain).store.last_trimmed_index) ∧
    (∀ (env : Env) (h : MessageHistory) (ops : List HistOp),
        h.last_trimmed_index ≤ (runOps env h ops).last_trimmed_index) := by
  constructor
  · intro env h chain
    rw [trim_store_cursor]
  · intro env h ops
    rw [runOps_cursor]

/-- C3, counterexample: the claim says every flushed batch's token sum is
at most `max_tokens - prompt_template_overhead - tokens(summary at batch
start)`.  With a single event of 150 tokens, `max_tokens = 200` and a
13-token summary (budget 87), the code flushes an empty batch and then a
singleton batch of 150 tokens, which exceeds the budget: the first event of
a batch is placed without a budget check. -/
theorem c3_budget_counterexample :
    ¬ ∀ r ∈ (hC3.update_running_summary envC3 [⟨"function", "e"⟩]).flushes,
        (batchTokens envC3 r.batch : Int) ≤
          (envC3.max_tokens : Int) - (prompt_template_length : Int) -
            (r.summaryT : Int) := by
  decide

/-- C3, amended: every flushed batch containing at least two events
respects the budget computed from the summary token length in force when
the batch started accumulating (a violating batch is necessarily empty or
a singleton whose sole event alone exceeds the budget). -/
theorem c3_budget_amended (env : Env) (h : MessageHistory)
    (evs : List Message) (r : FlushRec)
    (hr : r ∈ (h.update_running_summary env evs).flushes)
    (hlen : 2 ≤ r.batch.length) :
    (batchTokens env r.batch : Int) ≤
      (env.max_tokens : Int) - (prompt_template_length : Int) -
        (r.summaryT : Int) := by
  unfold MessageHistory.update_running_summary at hr
  split at hr
  · simp at hr
  · dsimp only at hr
    refine packLoop_good env (normalize_events evs).1 ⟨h.summary, []⟩ [] 0
      (env.count_string_tokens h.summary) ?_ rfl ?_ r hr hlen
    · intro r hmem
      simp at hmem
    · intro h2
      simp at h2

/-- C3, witness for the amended theorem: a two-event batch flushed by the
loop, each event 10 tokens, summary 13 tokens, context 200. -/
theorem c3_budget_amended_witness :
    (⟨[⟨"function", "a"⟩, ⟨"function", "b"⟩], 13⟩ : FlushRec) ∈
      (hC3.update_running_summary envWit
        [⟨"function", "a"⟩, ⟨"function", "b"⟩]).flushes ∧
    2 ≤ ([⟨"function", "a"⟩, ⟨"function", "b"⟩] : List Message).length ∧
    (batchTokens envWit [⟨"function", "a"⟩, ⟨"function", "b"⟩] : Int) ≤
      (envWit.max_tokens : Int) - (prompt_template_length : Int) -
        ((13 : Nat) : Int) :=
  ⟨by decide, by decide,
    c3_budget_amended envWit hC3 [⟨"function", "a"⟩, ⟨"function", "b"⟩]
      ⟨[⟨"function", "a"⟩, ⟨"function", "b"⟩], 13⟩ (by decide) (by decide)⟩

/-- C4: the claim says every `user`-role event is dropped and dropping
never skips the following element.  The code removes from the list while
iterating over it, so after removing the first user message the iterator
skips the next element: on `[user "a", user "b"]` the second user message
is never visited and survives normalization. -/
theorem c4_user_message_survives :
    normalize_events [⟨"user", "a"⟩, ⟨"user", "b"⟩] = ([⟨"user", "b"⟩], []) :=
  rfl

/-- C5: with three planned flushes (three stale messages, each needing its
own batch) and the completion service failing on the second call, the
error propagates out of `trim` as a completion failure, `summary` holds
exactly the first flush's response (no rollback), `last_trimmed_index` is
unchanged, and only two completion calls were issued; with an always-ok
service the same input produces three flushes. -/
theorem c5_midflush_failure :
    (hC5.trim_messages envC5 []).result =
      Except.error TrimErr.completionFailure ∧
    (hC5.trim_messages envC5 []).store.summary = "S1" ∧
    (hC5.trim_messages envC5 []).store.last_trimmed_index =
      hC5.last_trimmed_index ∧
    (hC5.trim_messages envC5 []).flushes =
      [⟨[⟨"function", "a"⟩], 50⟩, ⟨[⟨"function", "b"⟩], 50⟩] ∧
    (hC5.trim_messages envC5ok []).flushes.length = 3 :=
  ⟨rfl, rfl, rfl, rfl, rfl⟩

/-- C6: whenever the stale selection is empty, `trim` returns the existing
summary message and an empty list, issues no completion calls, and leaves
the store (summary and cursor included) unchanged. -/
theorem c6_noop (env : Env) (h : MessageHistory) (chain : List Message)
    (hs : staleOf h chain = []) :
    h.trim_messages env chain =
      ⟨h, Except.ok (h.summary_message, []), [], []⟩ := by
  unfold MessageHistory.trim_messages
  rw [hs]

/-- C6, witness: a store whose single message sits at flattened index 0 is
never a candidate, so any trim on it is a no-op. -/
theorem c6_noop_witness :
    staleOf hC6 [] = [] ∧
    hC6.trim_messages envC1 [] =
      ⟨hC6, Except.ok (hC6.summary_message, []), [], []⟩ :=
  ⟨by decide, c6_noop envC1 hC6 [] (by decide)⟩

/-- C7: an assistant-role event whose content is the JSON object
`("thoughts": "x", "action": "y")` is normalized to role `you` with content
that is JSON holding `action` but not `thoughts`; an assistant-role event
whose content fails to parse keeps its content verbatim (role still
relabeled `you`), one diagnostic is emitted, and the loop continues with
the next event (the following system event is still relabeled). -/
theorem c7_thoughts_stripping :
    (normalize_events
        [⟨"assistant", "\x7b\"thoughts\": \"x\", \"action\": \"y\"\x7d"⟩] =
      ([⟨"you", "\x7b\"action\": \"y\"\x7d"⟩], []) ∧
     extract_json_from_response "\x7b\"action\": \"y\"\x7d" =
      Except.ok [("action", "y")]) ∧
    ∀ c : String, extract_json_from_response c = Except.error () →
      normalize_events [⟨"assistant", c⟩, ⟨"system", "s"⟩] =
        ([⟨"you", c⟩, ⟨"your computer", "s"⟩], ["Error: Invalid JSON"]) := by
  refine ⟨⟨rfl, rfl⟩, ?_⟩
  intro c hc
  show normGo 2 [⟨"assistant", c⟩, ⟨"system", "s"⟩] 0 [] = _
  simp only [normGo, List.getElem?_cons_zero, List.getElem?_cons_succ, hc]
  rfl

/-- C7, witness: the malformed-content branch at the concrete input
`"not json"`. -/
theorem c7_thoughts_stripping_witness :
    extract_json_from_response "not json" = Except.error () ∧
    normalize_events [⟨"assistant", "not json"⟩, ⟨"system", "s"⟩] =
      ([⟨"you", "not json"⟩, ⟨"your computer", "s"⟩], ["Error: Invalid JSON"]) :=
  ⟨rfl, c7_thoughts_stripping.2 "not json" rfl⟩

/-- C8: normalization works on a deep copy, so `trim` never mutates the
stored message cycles (whose `Message` objects are the very objects the
caller's lists alias), and whenever `trim` returns, the returned
`trimmed_messages` are the original stale messages with their original
roles and contents, not the normalized copies. -/
theorem c8_no_caller_mutation (env : Env) (h : MessageHistory)
    (chain : List Message) :
    (h.trim_messages env chain).store.message_cycles = h.message_cycles ∧
    ∀ p : Message × List Message,
      (h.trim_messages env chain).result = Except.ok p →
        p.2 = staleOf h chain :=
  ⟨trim_store_cycles env h chain, trim_result_ok_stale env h chain⟩

/-- C8, witness: on a no-op trim the returned list is the (empty) stale
selection and the cycles are untouched. -/
theorem c8_no_caller_mutation_witness :
    (hC6.trim_messages envC1 []).result =
      Except.ok (hC6.summary_message, []) ∧
    ([] : List Message) = staleOf hC6 [] :=
  ⟨rfl,
    (c8_no_caller_mutation envC1 hC6 []).2 (hC6.summary_message, []) rfl⟩

/-- C9: `summary_message()` is a pure function of the store returning a
system-role message whose content is exactly the framing sentence followed
by the summary; at `summary = "I found a key"` the content is exactly
`"This reminds you of these events from your past: \nI found a key"`. -/
theorem c9_summary_framing :
    (∀ h : MessageHistory,
        h.summary_message =
          ⟨"system",
            "This reminds you of these events from your past: \n" ++ h.summary⟩) ∧
    (MessageHistory.summary_message ⟨[], "I found a key", 0⟩).content =
      "This reminds you of these events from your past: \nI found a key" :=
  ⟨fun _ => rfl, rfl⟩

/-- C10: with the cursor at its initial value 0, the candidate filter
`i > last_trimmed_index` never selects flattened index 0, so the stale
selection — and hence any list `trim` returns or passes to summarization —
is drawn entirely from the flattened sequence with its first message
dropped. -/
theorem c10_first_message_never_trimmed (env : Env) (h : MessageHistory)
    (chain : List Message) (h0 : h.last_trimmed_index = 0) :
    List.Sublist (staleOf h chain) (h.messages.drop 1) ∧
    ∀ p : Message × List Message,
      (h.trim_messages env chain).result = Except.ok p →
        List.Sublist p.2 (h.messages.drop 1) := by
  have hsub : List.Sublist (staleOf h chain) (h.messages.drop 1) := by
    unfold staleOf
    rw [newMessagesOf_eq, h0]
    exact List.filter_sublist _
  refine ⟨hsub, ?_⟩
  intro p hp
  rw [trim_result_ok_stale env h chain p hp]
  exact hsub

/-- C10, witness: a fresh two-message store trimmed against an empty
chain. -/
theorem c10_first_message_never_trimmed_witness :
    hC10.last_trimmed_index = 0 ∧
    (List.Sublist (staleOf hC10 []) (hC10.messages.drop 1) ∧
     ∀ p : Message × List Message,
       (hC10.trim_messages envC1 []).result = Except.ok p →
         List.Sublist p.2 (hC10.messages.drop 1)) :=
  ⟨rfl, c10_first_message_never_trimmed envC1 hC10 [] rfl⟩
